import Mathlib

set_option maxRecDepth 100000

/-!
Shallow embedding of the semver validation routine of
`github.com/mattfarina/semver-isvalid/pkg/semver` (file `semver.go`).

Strings are modelled as `List Char`.  The Go function
`Validate(ver string) (error, []string)` is modelled as
`Validate : List Char → Option (Option VErr × List String)`:
the outer `Option` is `none` exactly when the Go code would `panic`
(the `numToName` default branch), the inner `Option VErr` is the Go
`error` result (`none` = `nil` = valid), and the `List String` is the
accumulated message slice.

Go's `fmt` verb `%q` is modelled as plain double quoting, which agrees
with Go for the ASCII, escape-free strings this program quotes.
-/

namespace SemverIsValid

/-- The `error` values `Validate` can return.  The four named cases are the
package-level sentinel errors; `numSyntax` and `numRange` model the two
`strconv.ParseUint` failure modes (`strconv.ErrSyntax` / `strconv.ErrRange`,
wrapped in a `*strconv.NumError`). -/
inductive VErr where
  | emptyString
  | invalidNumberParts
  | invalidCharacters
  | segmentStartsZero
  | numSyntax
  | numRange
deriving DecidableEq, Repr

/-- Split a char list at the first occurrence of `sep`: `none` when `sep`
does not occur, otherwise the pieces strictly before and after it. -/
def splitOnce (sep : Char) : List Char → Option (List Char × List Char)
  | [] => none
  | c :: cs =>
    if c = sep then some ([], cs)
    else
      match splitOnce sep cs with
      | none => none
      | some (l, r) => some (c :: l, r)

/-- Go `strings.SplitN s sep n` for a single-character separator:
at most `n` pieces, the last piece keeping any further separators. -/
def goSplitN (sep : Char) : Nat → List Char → List (List Char)
  | 0, _ => []
  | 1, s => [s]
  | n + 2, s =>
    match splitOnce sep s with
    | none => [s]
    | some (l, r) => l :: goSplitN sep (n + 1) r

/-- Go `strings.Split s sep` (unbounded split) for a single-character
separator. -/
def goSplit (sep : Char) : List Char → List (List Char)
  | [] => [[]]
  | c :: cs =>
    if c = sep then [] :: goSplit sep cs
    else
      match goSplit sep cs with
      | [] => [[c]]
      | p :: ps => (c :: p) :: ps

/-- The Go constant `num = "0123456789"`. -/
def num : List Char :=
  ['0', '1', '2', '3', '4', '5', '6', '7', '8', '9']

/-- The Go constant
`allowed = "abcdefghijklmnopqrstuvwxyzABCDEFGHIJKLMNOPQRSTUVWXYZ-" + num`. -/
def allowed : List Char :=
  ['a', 'b', 'c', 'd', 'e', 'f', 'g', 'h', 'i', 'j', 'k', 'l', 'm',
   'n', 'o', 'p', 'q', 'r', 's', 't', 'u', 'v', 'w', 'x', 'y', 'z',
   'A', 'B', 'C', 'D', 'E', 'F', 'G', 'H', 'I', 'J', 'K', 'L', 'M',
   'N', 'O', 'P', 'Q', 'R', 'S', 'T', 'U', 'V', 'W', 'X', 'Y', 'Z',
   '-'] ++ num

/-- `containsOnly s comp`: every character of `s` occurs in `comp`
(Go: `strings.IndexFunc(s, r ↦ ¬ContainsRune(comp, r)) == -1`). -/
def containsOnly (s comp : List Char) : Bool :=
  s.all fun c => comp.any fun c2 => c2 = c

/-- `numToName`: names the three core segments; the Go default branch is a
`panic`, modelled as `none`. -/
def numToName : Nat → Option String
  | 0 => some "major"
  | 1 => some "minor"
  | 2 => some "patch"
  | _ => none

/-- The `for i, p := range parts` loop of `Validate` over the indexed core
segments.  Result: `none` = panic inside the loop, `some none` = all
segments passed, `some (some (e, m))` = early return with error `e` after
appending the single message `m`. -/
def checkSegs : List (Nat × List Char) → Option (Option (VErr × String))
  | [] => some none
  | (i, p) :: rest =>
    if containsOnly p num = false then
      match numToName i with
      | none => none
      | some nm =>
        some (some (VErr.invalidCharacters,
          "Illegal non-numeric characters found in \"" ++ nm ++ "\" part"))
    else if 1 < p.length ∧ p.headD ' ' = '0' then
      match numToName i with
      | none => none
      | some nm =>
        some (some (VErr.segmentStartsZero,
          "Illegal leading 0 found in \"" ++ nm ++ "\" part"))
    else checkSegs rest

/-- Value of a decimal digit string (most significant first). -/
def digitsToNat (s : List Char) : Nat :=
  s.foldl (fun acc c => acc * 10 + (c.toNat - '0'.toNat)) 0

/-- Go `strconv.ParseUint s 10 64`: fails with a syntax error on the empty
string or any non-digit character, with a range error when the value does
not fit in 64 bits; otherwise returns the value. -/
def parseUint64 (s : List Char) : Except VErr Nat :=
  if s = [] then .error .numSyntax
  else if containsOnly s num then
    if digitsToNat s < 2 ^ 64 then .ok (digitsToNat s)
    else .error .numRange
  else .error .numSyntax

/-- One `ParseUint` step of `Validate` for the segment called `nm`,
with the message it appends. -/
def parseOne (nm : String) (s : List Char) : Option VErr × List String :=
  match parseUint64 s with
  | .error e =>
    (some e, ["Unable to parse " ++ nm ++ " part. Must be valid numeric characters [0-9]"])
  | .ok n => (none, ["Found " ++ nm ++ " version of " ++ toString n])

/-- The pre-release identifier loop of `Validate`: `none` when every
identifier passes, otherwise the error and the single message of the first
failing identifier. -/
def checkPreIds : List (List Char) → Option (VErr × String)
  | [] => none
  | p :: rest =>
    if containsOnly p num then
      if 1 < p.length ∧ p.headD ' ' = '0' then
        some (VErr.segmentStartsZero,
          "Illegal leading 0 found in pre-release numeric part \"" ++ String.mk p ++ "\"")
      else checkPreIds rest
    else if containsOnly p allowed = false then
      some (VErr.invalidCharacters,
        "Illegal characters found in pre-release non-numeric part \"" ++ String.mk p
          ++ "\". Must be [0-9A-Za-z-]")
    else checkPreIds rest

/-- The `if v.pre != ""` block of `Validate`: error (if any) and the
messages this block appends. -/
def preStage (pre : List Char) : Option VErr × List String :=
  if pre = [] then (none, [])
  else
    match checkPreIds (goSplit '.' pre) with
    | some (e, m) => (some e, [m])
    | none =>
      (none,
        ["Version is a pre-release version rather than a stable release version with a pre-release identifier of \""
            ++ String.mk pre ++ "\"",
         "NOTICE: A pre-release version indicates that the version is unstable and might not satisfy the intended compatibility requirements as denoted by its associated normal version."])

/-- The metadata identifier loop of `Validate`: `none` when every
identifier passes, otherwise the message of the first failing one. -/
def checkMetaIds : List (List Char) → Option String
  | [] => none
  | p :: rest =>
    if containsOnly p allowed = false then
      some ("Illegal characters found in metadata part \"" ++ String.mk p
        ++ "\". Must be [0-9A-Za-z-]")
    else checkMetaIds rest

/-- The `if v.metadata != ""` block of `Validate`. -/
def mdStage (md : List Char) : Option VErr × List String :=
  if md = [] then (none, [])
  else
    match checkMetaIds (goSplit '.' md) with
    | some m => (some VErr.invalidCharacters, [m])
    | none =>
      (none,
        ["Found build metadate on version of \"" ++ String.mk md ++ "\"",
         "NOTICE: Build metadata MUST be ignored when determining version precedence. Thus two versions that differ only in the build metadata, have the same precedence."])

/-- Sequencing of two early-return stages: an error in the first stage
returns its messages alone; otherwise the second stage runs and both
stages' messages accumulate. -/
def seqv (r k : Option VErr × List String) : Option VErr × List String :=
  match r with
  | (some e, ms) => (some e, ms)
  | (none, ms) => (k.1, ms ++ k.2)

/-- Everything `Validate` does after the core-segment loop has passed:
parse major, minor, patch in order, then the pre-release block, then the
metadata block, with early returns. -/
def parseAndRest (a b c pre md : List Char) : Option VErr × List String :=
  seqv (parseOne "major" a)
    (seqv (parseOne "minor" b)
      (seqv (parseOne "patch" c)
        (seqv (preStage pre) (mdStage md))))

/-- Suffix extraction from the third piece (`parts[2]`): when it contains
`-` or `+`, first split once on `+` (right part = metadata), then split
the remaining left part once on `-` (right part = pre-release).
Returns (cleaned third piece, pre-release, metadata). -/
def extractSuffixes (p2 : List Char) : List Char × List Char × List Char :=
  if p2.any (fun ch => ch = '-' || ch = '+') then
    match splitOnce '+' p2 with
    | some (l, r) =>
      (match splitOnce '-' l with
       | some (l2, r2) => (l2, r2, r)
       | none => (l, [], r))
    | none =>
      (match splitOnce '-' p2 with
       | some (l2, r2) => (l2, r2, [])
       | none => (p2, [], []))
  else (p2, [], [])

/-- The embedding of `semver.Validate`.  `none` models a panic; otherwise
`some (err, messages)` with `err = none` meaning the version is valid. -/
def Validate (ver : List Char) : Option (Option VErr × List String) :=
  if ver.length = 0 then some (some VErr.emptyString, [])
  else
    match goSplitN '.' 3 ver with
    | [a, b, c0] =>
      let ext := extractSuffixes c0
      match checkSegs (List.enum [a, b, ext.1]) with
      | none => none
      | some (some (e, m)) => some (some e, [m])
      | some none => some (parseAndRest a b ext.1 ext.2.1 ext.2.2)
    | parts =>
      some (some VErr.invalidNumberParts,
        ["Found " ++ toString parts.length ++ " number of parts"])

/-- The condition under which the pre-release identifier loop continues
past an identifier without returning. -/
def preIdPass (p : List Char) : Bool :=
  if containsOnly p num then
    if 1 < p.length ∧ p.headD ' ' = '0' then false else true
  else containsOnly p allowed

end SemverIsValid

namespace SemverIsValid

/-! ### Structural lemmas about splitting -/

theorem splitOnce_append {sep : Char} :
    ∀ {s l r : List Char}, splitOnce sep s = some (l, r) → s = l ++ sep :: r := by
  intro s
  induction s with
  | nil => intro l r h; simp [splitOnce] at h
  | cons c cs ih =>
    intro l r h
    simp only [splitOnce] at h
    split at h
    · rename_i hc
      injection h with h2
      injection h2 with hl hr
      subst hl; subst hr; subst hc
      rfl
    · rename_i hc
      split at h
      · cases h
      · rename_i l2 r2 heq
        injection h with h2
        injection h2 with hl hr
        subst hl; subst hr
        have := ih heq
        rw [this]
        rfl

theorem goSplit_eq_of_splitOnce_none {sep : Char} :
    ∀ {s : List Char}, splitOnce sep s = none → goSplit sep s = [s] := by
  intro s
  induction s with
  | nil => intro _; rfl
  | cons c cs ih =>
    intro h
    simp only [splitOnce] at h
    split at h
    · cases h
    · rename_i hc
      split at h
      · rename_i heq
        simp only [goSplit]
        rw [if_neg hc, ih heq]
      · cases h

theorem goSplit_eq_of_splitOnce_some {sep : Char} :
    ∀ {s l r : List Char}, splitOnce sep s = some (l, r) →
      goSplit sep s = l :: goSplit sep r := by
  intro s
  induction s with
  | nil => intro l r h; simp [splitOnce] at h
  | cons c cs ih =>
    intro l r h
    simp only [splitOnce] at h
    split at h
    · rename_i hc
      injection h with h2
      injection h2 with hl hr
      subst hl; subst hr; subst hc
      simp [goSplit]
    · rename_i hc
      split at h
      · cases h
      · rename_i l2 r2 heq
        injection h with h2
        injection h2 with hl hr
        subst hl; subst hr
        simp only [goSplit]
        rw [if_neg hc, ih heq]

theorem goSplit_ne_nil {sep : Char} (s : List Char) : goSplit sep s ≠ [] := by
  rcases h : splitOnce sep s with _ | ⟨l, r⟩
  · rw [goSplit_eq_of_splitOnce_none h]; simp
  · rw [goSplit_eq_of_splitOnce_some h]; simp

theorem goSplitN3_cases (sep : Char) (s : List Char) :
    (splitOnce sep s = none ∧ goSplitN sep 3 s = [s]) ∨
    (∃ a r, splitOnce sep s = some (a, r) ∧ splitOnce sep r = none ∧
      goSplitN sep 3 s = [a, r]) ∨
    (∃ a r b r2, splitOnce sep s = some (a, r) ∧ splitOnce sep r = some (b, r2) ∧
      goSplitN sep 3 s = [a, b, r2]) := by
  rcases h1 : splitOnce sep s with _ | ⟨a, r⟩
  · left
    exact ⟨rfl, by simp [goSplitN, h1]⟩
  · rcases h2 : splitOnce sep r with _ | ⟨b, r2⟩
    · right; left
      exact ⟨a, r, rfl, h2, by simp [goSplitN, h1, h2]⟩
    · right; right
      exact ⟨a, r, b, r2, rfl, h2, by simp [goSplitN, h1, h2]⟩

theorem goSplitN3_length (sep : Char) (s : List Char) :
    (goSplitN sep 3 s).length = 1 ∨ (goSplitN sep 3 s).length = 2 ∨
      (goSplitN sep 3 s).length = 3 := by
  rcases goSplitN3_cases sep s with ⟨_, h⟩ | ⟨a, r, _, _, h⟩ | ⟨a, r, b, r2, _, _, h⟩ <;>
    simp [h]

theorem goSplitN3_eq_three {sep : Char} {s a b c0 : List Char}
    (h : goSplitN sep 3 s = [a, b, c0]) :
    ∃ r, splitOnce sep s = some (a, r) ∧ splitOnce sep r = some (b, c0) := by
  rcases goSplitN3_cases sep s with ⟨_, h1⟩ | ⟨x, r, _, _, h1⟩ |
      ⟨x, r, y, r2, hx, hy, h1⟩
  · rw [h1] at h; cases h
  · rw [h1] at h; cases h
  · rw [h1] at h
    injection h with e1 h
    injection h with e2 h
    injection h with e3 _
    subst e1; subst e2; subst e3
    exact ⟨r, hx, hy⟩

theorem goSplit_of_goSplitN3 {sep : Char} {s a b c0 : List Char}
    (h : goSplitN sep 3 s = [a, b, c0]) :
    goSplit sep s = a :: b :: goSplit sep c0 := by
  obtain ⟨r, h1, h2⟩ := goSplitN3_eq_three h
  rw [goSplit_eq_of_splitOnce_some h1, goSplit_eq_of_splitOnce_some h2]

end SemverIsValid

namespace SemverIsValid

/-! ### Character-set lemmas -/

theorem mem_num_mem_allowed : ∀ c ∈ num, (allowed.any fun c2 => c2 = c) = true := by
  decide

theorem containsOnly_num_imp_allowed {p : List Char} (h : containsOnly p num = true) :
    containsOnly p allowed = true := by
  unfold containsOnly at h ⊢
  rw [List.all_eq_true] at h ⊢
  intro c hc
  have h2 := h c hc
  rw [List.any_eq_true] at h2
  obtain ⟨c2, hc2, he⟩ := h2
  have : c2 = c := by simpa using he
  subst this
  exact mem_num_mem_allowed c2 hc2

/-! ### `checkSegs` lemmas -/

theorem checkSegs_cons_invalid {i : Nat} {p : List Char} {nm : String}
    (rest : List (Nat × List Char)) (hnm : numToName i = some nm)
    (h : containsOnly p num = false) :
    checkSegs ((i, p) :: rest) =
      some (some (VErr.invalidCharacters,
        "Illegal non-numeric characters found in \"" ++ nm ++ "\" part")) := by
  unfold checkSegs
  rw [if_pos h, hnm]

theorem checkSegs_cons_zero {i : Nat} {p : List Char} {nm : String}
    (rest : List (Nat × List Char)) (hnm : numToName i = some nm)
    (h1 : containsOnly p num = true) (h2 : 1 < p.length ∧ p.headD ' ' = '0') :
    checkSegs ((i, p) :: rest) =
      some (some (VErr.segmentStartsZero,
        "Illegal leading 0 found in \"" ++ nm ++ "\" part")) := by
  unfold checkSegs
  rw [if_neg (by simp [h1]), if_pos h2, hnm]

theorem checkSegs_cons_pass {i : Nat} {p : List Char}
    (rest : List (Nat × List Char)) (h1 : containsOnly p num = true)
    (h2 : ¬(1 < p.length ∧ p.headD ' ' = '0')) :
    checkSegs ((i, p) :: rest) = checkSegs rest := by
  conv_lhs => rw [checkSegs]
  rw [if_neg (by simp [h1]), if_neg h2]

theorem checkSegs_pass_inv : ∀ {l : List (Nat × List Char)}, checkSegs l = some none →
    ∀ x ∈ l, containsOnly x.2 num = true ∧ ¬(1 < x.2.length ∧ x.2.headD ' ' = '0') := by
  intro l
  induction l with
  | nil => intro _ x hx; cases hx
  | cons ip rest ih =>
    intro h x hx
    obtain ⟨i, p⟩ := ip
    unfold checkSegs at h
    split at h
    · split at h <;> cases h
    · rename_i hco
      split at h
      · split at h <;> cases h
      · rename_i hz
        rcases List.mem_cons.mp hx with rfl | hx2
        · exact ⟨by simpa using hco, hz⟩
        · exact ih h x hx2

theorem checkSegs_err_inv : ∀ {l : List (Nat × List Char)} {e : VErr} {m : String},
    checkSegs l = some (some (e, m)) →
    e = VErr.invalidCharacters ∨ e = VErr.segmentStartsZero := by
  intro l
  induction l with
  | nil => intro e m h; simp [checkSegs] at h
  | cons ip rest ih =>
    intro e m h
    obtain ⟨i, p⟩ := ip
    unfold checkSegs at h
    split at h
    · split at h
      · cases h
      · left
        injection h with h2
        injection h2 with h3
        exact (congrArg Prod.fst h3).symm
    · split at h
      · split at h
        · cases h
        · right
          injection h with h2
          injection h2 with h3
          exact (congrArg Prod.fst h3).symm
      · exact ih h

theorem checkSegs3_ne_none (a b c : List Char) :
    checkSegs [(0, a), (1, b), (2, c)] ≠ none := by
  unfold checkSegs
  repeat' split <;> simp_all [numToName, checkSegs]

/-! ### `Validate` unfolding lemmas -/

theorem Validate_eq_of_split3 {ver a b c0 : List Char} (hne : ver ≠ [])
    (hsplit : goSplitN '.' 3 ver = [a, b, c0]) :
    Validate ver =
      match checkSegs [(0, a), (1, b), (2, (extractSuffixes c0).1)] with
      | none => none
      | some (some (e, m)) => some (some e, [m])
      | some none =>
        some (parseAndRest a b (extractSuffixes c0).1
          (extractSuffixes c0).2.1 (extractSuffixes c0).2.2) := by
  unfold Validate
  rw [if_neg (by simpa [List.length_eq_zero] using hne), hsplit]
  rfl

theorem Validate_segfail {ver a b c0 : List Char} {e : VErr} {m : String}
    (hne : ver ≠ []) (hsplit : goSplitN '.' 3 ver = [a, b, c0])
    (h : checkSegs [(0, a), (1, b), (2, (extractSuffixes c0).1)] = some (some (e, m))) :
    Validate ver = some (some e, [m]) := by
  rw [Validate_eq_of_split3 hne hsplit, h]

theorem Validate_segpass {ver a b c0 : List Char}
    (hne : ver ≠ []) (hsplit : goSplitN '.' 3 ver = [a, b, c0])
    (h : checkSegs [(0, a), (1, b), (2, (extractSuffixes c0).1)] = some none) :
    Validate ver = some (parseAndRest a b (extractSuffixes c0).1
      (extractSuffixes c0).2.1 (extractSuffixes c0).2.2) := by
  rw [Validate_eq_of_split3 hne hsplit, h]

theorem Validate_wrongcount {ver : List Char} (hne : ver ≠ [])
    (hlen : (goSplitN '.' 3 ver).length ≠ 3) :
    Validate ver = some (some VErr.invalidNumberParts,
      ["Found " ++ toString (goSplitN '.' 3 ver).length ++ " number of parts"]) := by
  unfold Validate
  rw [if_neg (by simpa [List.length_eq_zero] using hne)]
  rcases goSplitN3_cases '.' ver with ⟨_, h1⟩ | ⟨x, r, _, _, h1⟩ |
      ⟨x, r, y, r2, _, _, h1⟩
  · rw [h1]
  · rw [h1]
  · exact absurd (by rw [h1]; rfl) hlen

end SemverIsValid

namespace SemverIsValid

/-! ### `parseUint64` lemmas -/

theorem parseUint64_ok {s : List Char} (h1 : s ≠ []) (h2 : containsOnly s num = true)
    (h3 : digitsToNat s < 2 ^ 64) : parseUint64 s = .ok (digitsToNat s) := by
  unfold parseUint64
  rw [if_neg h1, if_pos h2, if_pos h3]

theorem parseUint64_range {s : List Char} (h2 : containsOnly s num = true)
    (h3 : 2 ^ 64 ≤ digitsToNat s) : parseUint64 s = .error .numRange := by
  have hne : s ≠ [] := by
    intro he
    subst he
    simp [digitsToNat] at h3
  unfold parseUint64
  rw [if_neg hne, if_pos h2, if_neg (by omega)]

theorem parseUint64_ok_inv {s : List Char} {n : Nat} (h : parseUint64 s = .ok n) :
    n = digitsToNat s ∧ s ≠ [] ∧ containsOnly s num = true ∧ digitsToNat s < 2 ^ 64 := by
  unfold parseUint64 at h
  split at h
  · cases h
  · rename_i hne
    split at h
    · rename_i hco
      split at h
      · rename_i hlt
        injection h with h2
        exact ⟨h2.symm, hne, hco, hlt⟩
      · cases h
    · cases h

theorem parseUint64_err_inv {s : List Char} {e : VErr} (h : parseUint64 s = .error e) :
    e = VErr.numSyntax ∨ e = VErr.numRange := by
  unfold parseUint64 at h
  split at h
  · left; injection h with h2; exact h2.symm
  · split at h
    · split at h
      · cases h
      · right; injection h with h2; exact h2.symm
    · left; injection h with h2; exact h2.symm

/-! ### `seqv`, `parseOne`, `parseAndRest` lemmas -/

theorem seqv_err (e : VErr) (ms : List String) (k : Option VErr × List String) :
    seqv (some e, ms) k = (some e, ms) := rfl

theorem seqv_ok (ms : List String) (k : Option VErr × List String) :
    seqv (none, ms) k = (k.1, ms ++ k.2) := rfl

theorem parseOne_ok {nm : String} {s : List Char} {n : Nat}
    (h : parseUint64 s = .ok n) :
    parseOne nm s = (none, ["Found " ++ nm ++ " version of " ++ toString n]) := by
  unfold parseOne
  rw [h]

theorem parseOne_err {nm : String} {s : List Char} {e : VErr}
    (h : parseUint64 s = .error e) :
    parseOne nm s =
      (some e, ["Unable to parse " ++ nm ++ " part. Must be valid numeric characters [0-9]"]) := by
  unfold parseOne
  rw [h]

theorem parseAndRest_valid_inv {a b c pre md : List Char} {msgs : List String}
    (h : parseAndRest a b c pre md = (none, msgs)) :
    parseUint64 a = .ok (digitsToNat a) ∧ parseUint64 b = .ok (digitsToNat b) ∧
    parseUint64 c = .ok (digitsToNat c) ∧
    (preStage pre).1 = none ∧ (mdStage md).1 = none ∧
    msgs = ("Found major version of " ++ toString (digitsToNat a)) ::
           ("Found minor version of " ++ toString (digitsToNat b)) ::
           ("Found patch version of " ++ toString (digitsToNat c)) ::
           ((preStage pre).2 ++ (mdStage md).2) := by
  unfold parseAndRest at h
  rcases ha : parseUint64 a with ea | na
  · rw [parseOne_err ha, seqv_err] at h
    cases h
  · obtain ⟨hna, -, -, -⟩ := parseUint64_ok_inv ha
    subst hna
    rw [parseOne_ok ha, seqv_ok] at h
    rcases hb : parseUint64 b with eb | nb
    · rw [parseOne_err hb, seqv_err] at h
      exact absurd (congrArg Prod.fst h) (by simp)
    · obtain ⟨hnb, -, -, -⟩ := parseUint64_ok_inv hb
      subst hnb
      rw [parseOne_ok hb, seqv_ok] at h
      rcases hc : parseUint64 c with ec | nc
      · rw [parseOne_err hc, seqv_err] at h
        exact absurd (congrArg Prod.fst h) (by simp)
      · obtain ⟨hnc, -, -, -⟩ := parseUint64_ok_inv hc
        subst hnc
        rw [parseOne_ok hc, seqv_ok] at h
        rcases hp : preStage pre with ⟨pe, pm⟩
        rw [hp] at h
        rcases pe with _ | pe
        · rw [seqv_ok] at h
          rcases hm : mdStage md with ⟨me, mm⟩
          rw [hm] at h
          rcases me with _ | me
          · refine ⟨rfl, rfl, rfl, rfl, rfl, ?_⟩
            have h2 := congrArg Prod.snd h
            simp only at h2
            rw [← h2]
            simp
          · exact absurd (congrArg Prod.fst h) (by simp)
        · rw [seqv_err] at h
          exact absurd (congrArg Prod.fst h) (by simp)

theorem parseAndRest_msgs_ne_nil (a b c pre md : List Char) :
    (parseAndRest a b c pre md).2 ≠ [] := by
  unfold parseAndRest
  rcases ha : parseUint64 a with ea | na
  · rw [parseOne_err ha, seqv_err]
    simp
  · rw [parseOne_ok ha, seqv_ok]
    simp

end SemverIsValid

namespace SemverIsValid

/-! ### Error classification of the later stages -/

theorem checkPreIds_err_inv : ∀ {l : List (List Char)} {e : VErr} {m : String},
    checkPreIds l = some (e, m) →
    e = VErr.segmentStartsZero ∨ e = VErr.invalidCharacters := by
  intro l
  induction l with
  | nil => intro e m h; cases h
  | cons p rest ih =>
    intro e m h
    unfold checkPreIds at h
    split at h
    · split at h
      · left
        injection h with h2
        exact (congrArg Prod.fst h2).symm
      · exact ih h
    · split at h
      · right
        injection h with h2
        exact (congrArg Prod.fst h2).symm
      · exact ih h

theorem preStage_err_inv {pre : List Char} {e : VErr}
    (h : (preStage pre).1 = some e) :
    e = VErr.segmentStartsZero ∨ e = VErr.invalidCharacters := by
  unfold preStage at h
  split at h
  · cases h
  · split at h
    · rename_i e2 m heq
      obtain rfl : e2 = e := Option.some.inj h
      exact checkPreIds_err_inv heq
    · cases h

theorem mdStage_err_inv {md : List Char} {e : VErr}
    (h : (mdStage md).1 = some e) : e = VErr.invalidCharacters := by
  unfold mdStage at h
  split at h
  · cases h
  · split at h
    · exact (Option.some.inj h).symm
    · cases h

theorem parseAndRest_err_inv {a b c pre md : List Char} {e : VErr} {msgs : List String}
    (h : parseAndRest a b c pre md = (some e, msgs)) :
    e = VErr.numSyntax ∨ e = VErr.numRange ∨ e = VErr.segmentStartsZero ∨
      e = VErr.invalidCharacters := by
  unfold parseAndRest at h
  rcases ha : parseUint64 a with ea | na
  · rw [parseOne_err ha, seqv_err] at h
    injection h with h1 h2
    obtain rfl := Option.some.inj h1
    rcases parseUint64_err_inv ha with h3 | h3
    · exact Or.inl h3
    · exact Or.inr (Or.inl h3)
  · rw [parseOne_ok ha, seqv_ok] at h
    injection h with h1 h2
    rcases hb : parseUint64 b with eb | nb
    · rw [parseOne_err hb, seqv_err] at h1
      obtain rfl : eb = e := Option.some.inj h1
      rcases parseUint64_err_inv hb with h3 | h3
      · exact Or.inl h3
      · exact Or.inr (Or.inl h3)
    · rw [parseOne_ok hb, seqv_ok] at h1
      rcases hc : parseUint64 c with ec | nc
      · rw [parseOne_err hc, seqv_err] at h1
        obtain rfl : ec = e := Option.some.inj h1
        rcases parseUint64_err_inv hc with h3 | h3
        · exact Or.inl h3
        · exact Or.inr (Or.inl h3)
      · rw [parseOne_ok hc, seqv_ok] at h1
        rcases hp : preStage pre with ⟨pe, pm⟩
        rw [hp] at h1
        rcases pe with _ | pe
        · rw [seqv_ok] at h1
          have h4 : (mdStage md).1 = some e := h1
          rcases mdStage_err_inv h4 with h5
          exact Or.inr (Or.inr (Or.inr h5))
        · rw [seqv_err] at h1
          obtain rfl : pe = e := Option.some.inj h1
          have h4 : (preStage pre).1 = some pe := by rw [hp]
          rcases preStage_err_inv h4 with h5 | h5
          · exact Or.inr (Or.inr (Or.inl h5))
          · exact Or.inr (Or.inr (Or.inr h5))

/-! ### Master case analysis of `Validate` -/

theorem Validate_cases (ver : List Char) :
    (ver = [] ∧ Validate ver = some (some VErr.emptyString, [])) ∨
    (ver ≠ [] ∧ (goSplitN '.' 3 ver).length ≠ 3 ∧
      Validate ver = some (some VErr.invalidNumberParts,
        ["Found " ++ toString (goSplitN '.' 3 ver).length ++ " number of parts"])) ∨
    (∃ a b c0 e m, ver ≠ [] ∧ goSplitN '.' 3 ver = [a, b, c0] ∧
      checkSegs [(0, a), (1, b), (2, (extractSuffixes c0).1)] = some (some (e, m)) ∧
      Validate ver = some (some e, [m])) ∨
    (∃ a b c0, ver ≠ [] ∧ goSplitN '.' 3 ver = [a, b, c0] ∧
      checkSegs [(0, a), (1, b), (2, (extractSuffixes c0).1)] = some none ∧
      Validate ver = some (parseAndRest a b (extractSuffixes c0).1
        (extractSuffixes c0).2.1 (extractSuffixes c0).2.2)) := by
  by_cases hne : ver = []
  · left
    subst hne
    exact ⟨rfl, rfl⟩
  · rcases goSplitN3_cases '.' ver with ⟨_, h1⟩ | ⟨x, r, _, _, h1⟩ |
        ⟨x, r, y, r2, _, _, h1⟩
    · right; left
      refine ⟨hne, by rw [h1]; simp, ?_⟩
      exact Validate_wrongcount hne (by rw [h1]; simp)
    · right; left
      refine ⟨hne, by rw [h1]; simp, ?_⟩
      exact Validate_wrongcount hne (by rw [h1]; simp)
    · rcases hcs : checkSegs [(0, x), (1, y), (2, (extractSuffixes r2).1)] with _ | co
      · exact absurd hcs (checkSegs3_ne_none x y (extractSuffixes r2).1)
      · rcases co with _ | ⟨e, m⟩
        · right; right; right
          exact ⟨x, y, r2, hne, h1, hcs, Validate_segpass hne h1 hcs⟩
        · right; right; left
          exact ⟨x, y, r2, e, m, hne, h1, hcs, Validate_segfail hne h1 hcs⟩

end SemverIsValid

namespace SemverIsValid

/-! ### `extractSuffixes` lemmas -/

theorem extractSuffixes_eval {p2 l r : List Char}
    (hany : (p2.any fun ch => ch = '-' || ch = '+') = true)
    (hplus : splitOnce '+' p2 = some (l, r)) :
    extractSuffixes p2 =
      (match splitOnce '-' l with
       | some (l2, r2) => (l2, r2, r)
       | none => (l, [], r)) := by
  unfold extractSuffixes
  rw [if_pos hany, hplus]

theorem extractSuffixes_no_suffix {p2 : List Char}
    (hany : (p2.any fun ch => ch = '-' || ch = '+') = false) :
    extractSuffixes p2 = (p2, [], []) := by
  unfold extractSuffixes
  rw [if_neg (by simp [hany])]

/-! ### `checkPreIds`, `preStage`, `checkMetaIds` lemmas -/

theorem checkPreIds_cons_pass {p : List Char} (rest : List (List Char))
    (h : preIdPass p = true) : checkPreIds (p :: rest) = checkPreIds rest := by
  unfold preIdPass at h
  split at h
  · rename_i h1
    split at h
    · cases h
    · rename_i h2
      conv_lhs => rw [checkPreIds]
      rw [if_pos h1, if_neg h2]
  · rename_i h1
    conv_lhs => rw [checkPreIds]
    rw [if_neg h1, if_neg (by simp [h])]

theorem checkPreIds_append_pass {l1 : List (List Char)} (l2 : List (List Char))
    (h : ∀ q ∈ l1, preIdPass q = true) :
    checkPreIds (l1 ++ l2) = checkPreIds l2 := by
  induction l1 with
  | nil => rfl
  | cons p rest ih =>
    rw [List.cons_append, checkPreIds_cons_pass _ (h p (by simp))]
    exact ih (fun q hq => h q (by simp [hq]))

theorem checkPreIds_cons_zero {p : List Char} (rest : List (List Char))
    (h1 : containsOnly p num = true) (h2 : 1 < p.length ∧ p.headD ' ' = '0') :
    checkPreIds (p :: rest) = some (VErr.segmentStartsZero,
      "Illegal leading 0 found in pre-release numeric part \"" ++ String.mk p ++ "\"") := by
  conv_lhs => rw [checkPreIds]
  rw [if_pos h1, if_pos h2]

theorem checkPreIds_cons_invalid {p : List Char} (rest : List (List Char))
    (h1 : containsOnly p allowed = false) :
    checkPreIds (p :: rest) = some (VErr.invalidCharacters,
      "Illegal characters found in pre-release non-numeric part \"" ++ String.mk p
        ++ "\". Must be [0-9A-Za-z-]") := by
  have h2 : containsOnly p num = false := by
    rcases hn : containsOnly p num
    · rfl
    · exact absurd (containsOnly_num_imp_allowed hn) (by simp [h1])
  conv_lhs => rw [checkPreIds]
  rw [if_neg (by simp [h2]), if_pos h1]

theorem preIdPass_of_nonnumeric {p : List Char} (h1 : containsOnly p num = false)
    (h2 : containsOnly p allowed = true) : preIdPass p = true := by
  unfold preIdPass
  rw [if_neg (by simp [h1])]
  exact h2

theorem preStage_fail {pre : List Char} {e : VErr} {m : String}
    (hne : pre ≠ []) (h : checkPreIds (goSplit '.' pre) = some (e, m)) :
    preStage pre = (some e, [m]) := by
  unfold preStage
  rw [if_neg hne, h]

theorem checkMetaIds_none_iff : ∀ {ids : List (List Char)},
    checkMetaIds ids = none ↔ ∀ p ∈ ids, containsOnly p allowed = true := by
  intro ids
  induction ids with
  | nil => simp [checkMetaIds]
  | cons p rest ih =>
    unfold checkMetaIds
    rcases h : containsOnly p allowed
    · rw [if_pos (by simp [h])]
      simp [h]
    · rw [if_neg (by simp [h])]
      rw [ih]
      constructor
      · intro hall q hq
        rcases List.mem_cons.mp hq with rfl | hq2
        · exact h
        · exact hall q hq2
      · intro hall q hq
        exact hall q (by simp [hq])

end SemverIsValid

namespace SemverIsValid

/-! ### Claim theorems -/

/-- C1: for every input classified valid, the diagnostic sequence is exactly a
major line, then a minor line, then a patch line — each reporting the exact
integer parsed from that segment — followed by the pre-release diagnostics and
then the build-metadata diagnostics, so the three core lines precede any
pre-release or metadata diagnostics. -/
theorem valid_diagnostics_order (ver : List Char) (msgs : List String)
    (h : Validate ver = some (none, msgs)) :
    ∃ a b c0, goSplitN '.' 3 ver = [a, b, c0] ∧
      parseUint64 a = .ok (digitsToNat a) ∧
      parseUint64 b = .ok (digitsToNat b) ∧
      parseUint64 (extractSuffixes c0).1 = .ok (digitsToNat (extractSuffixes c0).1) ∧
      msgs = ("Found major version of " ++ toString (digitsToNat a)) ::
             ("Found minor version of " ++ toString (digitsToNat b)) ::
             ("Found patch version of " ++ toString (digitsToNat (extractSuffixes c0).1)) ::
             ((preStage (extractSuffixes c0).2.1).2 ++ (mdStage (extractSuffixes c0).2.2).2) := by
  rcases Validate_cases ver with ⟨_, he⟩ | ⟨_, _, he⟩ |
      ⟨a, b, c0, e, m, _, _, _, he⟩ | ⟨a, b, c0, _, hs, _, he⟩
  · rw [he] at h
    injection h with h1
    injection h1 with h1 _
    cases h1
  · rw [he] at h
    injection h with h1
    injection h1 with h1 _
    cases h1
  · rw [he] at h
    injection h with h1
    injection h1 with h1 _
    cases h1
  · rw [he] at h
    injection h with h1
    obtain ⟨ha, hb, hc, _, _, hmsgs⟩ := parseAndRest_valid_inv h1
    exact ⟨a, b, c0, hs, ha, hb, hc, hmsgs⟩

/-- Witness for C1 at the concrete valid input `1.2.3`. -/
theorem valid_diagnostics_order_witness :
    ∃ a b c0, goSplitN '.' 3 ("1.2.3".data) = [a, b, c0] ∧
      parseUint64 a = .ok (digitsToNat a) ∧
      parseUint64 b = .ok (digitsToNat b) ∧
      parseUint64 (extractSuffixes c0).1 = .ok (digitsToNat (extractSuffixes c0).1) ∧
      ["Found major version of 1", "Found minor version of 2",
        "Found patch version of 3"] =
        ("Found major version of " ++ toString (digitsToNat a)) ::
        ("Found minor version of " ++ toString (digitsToNat b)) ::
        ("Found patch version of " ++ toString (digitsToNat (extractSuffixes c0).1)) ::
        ((preStage (extractSuffixes c0).2.1).2 ++ (mdStage (extractSuffixes c0).2.2).2) :=
  valid_diagnostics_order "1.2.3".data
    ["Found major version of 1", "Found minor version of 2", "Found patch version of 3"]
    (by rfl)

/-- C6: the empty input yields the empty-string outcome with an empty
diagnostic sequence, and that is the only terminal outcome with an empty
diagnostic sequence — every other outcome, including valid, carries at least
one diagnostic. -/
theorem emptyString_unique_empty_diagnostics (ver : List Char) (e : Option VErr)
    (msgs : List String) (h : Validate ver = some (e, msgs)) :
    (msgs = [] ↔ e = some VErr.emptyString) ∧ (ver = [] ↔ e = some VErr.emptyString) := by
  rcases Validate_cases ver with ⟨hv, he⟩ | ⟨hv, hlen, he⟩ |
      ⟨a, b, c0, e2, m, hv, hs, hcs, he⟩ | ⟨a, b, c0, hv, hs, hcs, he⟩
  · rw [he] at h
    injection h with h1
    injection h1 with h1 h2
    subst h2
    rw [← h1]
    simp [hv]
  · rw [he] at h
    injection h with h1
    injection h1 with h1 h2
    subst h2
    rw [← h1]
    simp [hv]
  · rw [he] at h
    injection h with h1
    injection h1 with h1 h2
    subst h2
    rw [← h1]
    rcases checkSegs_err_inv hcs with rfl | rfl <;> simp [hv]
  · rw [he] at h
    injection h with h1
    have hmne : msgs ≠ [] := by
      have h2 := parseAndRest_msgs_ne_nil a b (extractSuffixes c0).1
        (extractSuffixes c0).2.1 (extractSuffixes c0).2.2
      rw [h1] at h2
      exact h2
    rcases e with _ | e2
    · simp [hmne, hv]
    · have h3 : parseAndRest a b (extractSuffixes c0).1 (extractSuffixes c0).2.1
          (extractSuffixes c0).2.2 = (some e2, msgs) := h1
      rcases parseAndRest_err_inv h3 with rfl | rfl | rfl | rfl <;> simp [hmne, hv]

/-- Witness for C6 at the concrete empty input. -/
theorem emptyString_unique_empty_diagnostics_witness :
    (([] : List String) = [] ↔ some VErr.emptyString = some VErr.emptyString) ∧
    (([] : List Char) = [] ↔ some VErr.emptyString = some VErr.emptyString) :=
  emptyString_unique_empty_diagnostics [] (some VErr.emptyString) [] rfl

/-- C7: every non-empty input whose 3-bounded dot split has a piece count
other than 3 yields the wrong-segment-count outcome with a single diagnostic
reporting the count found. -/
theorem wrong_segment_count (ver : List Char) (hne : ver ≠ [])
    (hlen : (goSplitN '.' 3 ver).length ≠ 3) :
    Validate ver = some (some VErr.invalidNumberParts,
      ["Found " ++ toString (goSplitN '.' 3 ver).length ++ " number of parts"]) :=
  Validate_wrongcount hne hlen

/-- Witness for C7 at the concrete input `1.2`. -/
theorem wrong_segment_count_witness :
    Validate "1.2".data = some (some VErr.invalidNumberParts,
      ["Found 2 number of parts"]) :=
  (wrong_segment_count "1.2".data (by decide) (by decide)).trans (by rfl)

/-- C8: the validator returns normally on every input — the `numToName`
panic (modelled by the outer `none`) is unreachable from `Validate`, which
only reaches `numToName` with indices 0, 1 and 2. -/
theorem validate_never_panics (ver : List Char) : (Validate ver).isSome := by
  rcases Validate_cases ver with ⟨_, he⟩ | ⟨_, _, he⟩ |
      ⟨a, b, c0, e, m, _, _, _, he⟩ | ⟨a, b, c0, _, _, _, he⟩ <;> rw [he] <;> rfl

/-- Witness for C8 at a concrete input. -/
theorem validate_never_panics_witness : (Validate "1.2.3".data).isSome :=
  validate_never_panics "1.2.3".data

end SemverIsValid

namespace SemverIsValid

/-- C3: core segment validation checks major, minor, then the cleaned patch
piece in that fixed order, applying the digit-only check before the
leading-zero check for each segment, and the first violation immediately
terminates validation with the corresponding outcome and a single diagnostic
naming the segment — the later segments are irrelevant to the result. -/
theorem core_segment_check_order (ver a b c0 c pre md : List Char)
    (hne : ver ≠ []) (hsplit : goSplitN '.' 3 ver = [a, b, c0])
    (hext : extractSuffixes c0 = (c, pre, md)) :
    (containsOnly a num = false →
      Validate ver = some (some VErr.invalidCharacters,
        ["Illegal non-numeric characters found in \"major\" part"])) ∧
    (containsOnly a num = true → 1 < a.length ∧ a.headD ' ' = '0' →
      Validate ver = some (some VErr.segmentStartsZero,
        ["Illegal leading 0 found in \"major\" part"])) ∧
    (containsOnly a num = true → ¬(1 < a.length ∧ a.headD ' ' = '0') →
      containsOnly b num = false →
      Validate ver = some (some VErr.invalidCharacters,
        ["Illegal non-numeric characters found in \"minor\" part"])) ∧
    (containsOnly a num = true → ¬(1 < a.length ∧ a.headD ' ' = '0') →
      containsOnly b num = true → 1 < b.length ∧ b.headD ' ' = '0' →
      Validate ver = some (some VErr.segmentStartsZero,
        ["Illegal leading 0 found in \"minor\" part"])) ∧
    (containsOnly a num = true → ¬(1 < a.length ∧ a.headD ' ' = '0') →
      containsOnly b num = true → ¬(1 < b.length ∧ b.headD ' ' = '0') →
      containsOnly c num = false →
      Validate ver = some (some VErr.invalidCharacters,
        ["Illegal non-numeric characters found in \"patch\" part"])) ∧
    (containsOnly a num = true → ¬(1 < a.length ∧ a.headD ' ' = '0') →
      containsOnly b num = true → ¬(1 < b.length ∧ b.headD ' ' = '0') →
      containsOnly c num = true → 1 < c.length ∧ c.headD ' ' = '0' →
      Validate ver = some (some VErr.segmentStartsZero,
        ["Illegal leading 0 found in \"patch\" part"])) := by
  have hc1 : (extractSuffixes c0).1 = c := by rw [hext]
  refine ⟨?_, ?_, ?_, ?_, ?_, ?_⟩
  · intro h1
    apply Validate_segfail hne hsplit
    rw [hc1]
    exact checkSegs_cons_invalid _ (show numToName 0 = some "major" from rfl) h1
  · intro h1 h2
    apply Validate_segfail hne hsplit
    rw [hc1]
    exact checkSegs_cons_zero _ (show numToName 0 = some "major" from rfl) h1 h2
  · intro h1 h2 h3
    apply Validate_segfail hne hsplit
    rw [hc1, checkSegs_cons_pass _ h1 h2]
    exact checkSegs_cons_invalid _ (show numToName 1 = some "minor" from rfl) h3
  · intro h1 h2 h3 h4
    apply Validate_segfail hne hsplit
    rw [hc1, checkSegs_cons_pass _ h1 h2]
    exact checkSegs_cons_zero _ (show numToName 1 = some "minor" from rfl) h3 h4
  · intro h1 h2 h3 h4 h5
    apply Validate_segfail hne hsplit
    rw [hc1, checkSegs_cons_pass _ h1 h2, checkSegs_cons_pass _ h3 h4]
    exact checkSegs_cons_invalid _ (show numToName 2 = some "patch" from rfl) h5
  · intro h1 h2 h3 h4 h5 h6
    apply Validate_segfail hne hsplit
    rw [hc1, checkSegs_cons_pass _ h1 h2, checkSegs_cons_pass _ h3 h4]
    exact checkSegs_cons_zero _ (show numToName 2 = some "patch" from rfl) h5 h6

/-- Witness for C3: on `1.x.3` the minor segment fails the digit-only check. -/
theorem core_segment_check_order_witness :
    Validate "1.x.3".data = some (some VErr.invalidCharacters,
      ["Illegal non-numeric characters found in \"minor\" part"]) :=
  (core_segment_check_order "1.x.3".data "1".data "x".data "3".data "3".data [] []
    (by decide) (by decide) (by decide)).2.2.1 (by decide) (by decide) (by decide)

/-- C2 counterexample: in `1..99999999999999999999` the patch segment passes
the digit-only and leading-zero checks and its value exceeds `2 ^ 64 - 1`,
yet validation returns the syntax-error outcome for the empty minor segment
(not an overflow outcome) and its diagnostic names minor, not patch. -/
theorem overflow_claim_counterexample :
    containsOnly "99999999999999999999".data num = true ∧
    ¬(1 < ("99999999999999999999".data).length ∧
        ("99999999999999999999".data).headD ' ' = '0') ∧
    2 ^ 64 ≤ digitsToNat "99999999999999999999".data ∧
    goSplitN '.' 3 "1..99999999999999999999".data =
      ["1".data, [], "99999999999999999999".data] ∧
    Validate "1..99999999999999999999".data = some (some VErr.numSyntax,
      ["Found major version of 1",
       "Unable to parse minor part. Must be valid numeric characters [0-9]"]) ∧
    VErr.numSyntax ≠ VErr.numRange := by
  decide

/-- C2 (amended): when every core segment passes the digit-only and
leading-zero checks, the first segment (in major, minor, patch order) whose
parse fails determines the result; if that segment's value exceeds the
64-bit range (earlier segments being nonempty and in range), validation
returns the distinct range-error outcome with a parse-failure diagnostic
naming that segment — the value is never wrapped and the input is never
classified valid. -/
theorem overflow_first_failing_segment (ver a b c0 c pre md : List Char)
    (hne : ver ≠ []) (hsplit : goSplitN '.' 3 ver = [a, b, c0])
    (hext : extractSuffixes c0 = (c, pre, md))
    (hsegs : checkSegs [(0, a), (1, b), (2, c)] = some none) :
    (2 ^ 64 ≤ digitsToNat a →
      Validate ver = some (some VErr.numRange,
        ["Unable to parse major part. Must be valid numeric characters [0-9]"])) ∧
    (a ≠ [] → digitsToNat a < 2 ^ 64 → 2 ^ 64 ≤ digitsToNat b →
      Validate ver = some (some VErr.numRange,
        ["Found major version of " ++ toString (digitsToNat a),
         "Unable to parse minor part. Must be valid numeric characters [0-9]"])) ∧
    (a ≠ [] → digitsToNat a < 2 ^ 64 → b ≠ [] → digitsToNat b < 2 ^ 64 →
      2 ^ 64 ≤ digitsToNat c →
      Validate ver = some (some VErr.numRange,
        ["Found major version of " ++ toString (digitsToNat a),
         "Found minor version of " ++ toString (digitsToNat b),
         "Unable to parse patch part. Must be valid numeric characters [0-9]"])) := by
  have hco := checkSegs_pass_inv hsegs
  have hcoa : containsOnly a num = true := (hco (0, a) (by simp)).1
  have hcob : containsOnly b num = true := (hco (1, b) (by simp)).1
  have hcoc : containsOnly c num = true := (hco (2, c) (by simp)).1
  have hval : Validate ver = some (parseAndRest a b c pre md) := by
    have h2 := Validate_segpass hne hsplit (by rw [hext]; exact hsegs)
    rw [hext] at h2
    exact h2
  refine ⟨?_, ?_, ?_⟩
  · intro h1
    rw [hval]
    have hpa := parseUint64_range hcoa h1
    unfold parseAndRest
    rw [parseOne_err hpa, seqv_err]
    rfl
  · intro h0 h1 h2
    rw [hval]
    have hpa := parseUint64_ok h0 hcoa h1
    have hpb := parseUint64_range hcob h2
    unfold parseAndRest
    rw [parseOne_ok hpa, seqv_ok, parseOne_err hpb, seqv_err]
    rfl
  · intro h0 h1 h0b h2 h3
    rw [hval]
    have hpa := parseUint64_ok h0 hcoa h1
    have hpb := parseUint64_ok h0b hcob h2
    have hpc := parseUint64_range hcoc h3
    unfold parseAndRest
    rw [parseOne_ok hpa, seqv_ok, parseOne_ok hpb, seqv_ok, parseOne_err hpc, seqv_err]
    rfl

/-- Witness for the amended C2: a 20-digit major segment overflows. -/
theorem overflow_first_failing_segment_witness :
    Validate "99999999999999999999.1.2".data = some (some VErr.numRange,
      ["Unable to parse major part. Must be valid numeric characters [0-9]"]) :=
  (overflow_first_failing_segment "99999999999999999999.1.2".data
    "99999999999999999999".data "1".data "2".data "2".data [] []
    (by decide) (by decide) (by decide) (by decide)).1 (by decide)

end SemverIsValid

namespace SemverIsValid

theorem any_false_append_right {p : Char → Bool} {x y : List Char}
    (h : ((x ++ y).any p) = false) : y.any p = false := by
  cases hy : y.any p
  · rfl
  · rw [List.any_append, hy, Bool.or_true] at h
    cases h

theorem any_false_cons_tail {p : Char → Bool} {c : Char} {y : List Char}
    (h : ((c :: y).any p) = false) : y.any p = false := by
  cases hy : y.any p
  · rfl
  · rw [List.any_cons, hy, Bool.or_true] at h
    cases h

/-- C4: pre-release identifiers are checked in order; once the identifiers
before `p` pass, a purely numeric `p` of length > 1 starting with `0` makes
validation return leading-zero-segment, an identifier with a character
outside `[0-9A-Za-z-]` makes it return invalid-characters, and a
non-numeric identifier made only of allowed characters (e.g. the same
digits plus a letter) does not trigger the leading-zero check at all. -/
theorem pre_release_identifier_checks (ver a b c0 c pre md : List Char)
    (na nb nc : Nat) (l1 : List (List Char)) (p : List Char) (l2 : List (List Char))
    (hne : ver ≠ []) (hsplit : goSplitN '.' 3 ver = [a, b, c0])
    (hext : extractSuffixes c0 = (c, pre, md))
    (hsegs : checkSegs [(0, a), (1, b), (2, c)] = some none)
    (hpa : parseUint64 a = .ok na) (hpb : parseUint64 b = .ok nb)
    (hpc : parseUint64 c = .ok nc)
    (hprene : pre ≠ []) (hdecomp : goSplit '.' pre = l1 ++ p :: l2)
    (hl1 : ∀ q ∈ l1, preIdPass q = true) :
    (containsOnly p num = true → 1 < p.length ∧ p.headD ' ' = '0' →
      Validate ver = some (some VErr.segmentStartsZero,
        ["Found major version of " ++ toString na,
         "Found minor version of " ++ toString nb,
         "Found patch version of " ++ toString nc,
         "Illegal leading 0 found in pre-release numeric part \"" ++ String.mk p ++ "\""])) ∧
    (containsOnly p allowed = false →
      Validate ver = some (some VErr.invalidCharacters,
        ["Found major version of " ++ toString na,
         "Found minor version of " ++ toString nb,
         "Found patch version of " ++ toString nc,
         "Illegal characters found in pre-release non-numeric part \"" ++ String.mk p
           ++ "\". Must be [0-9A-Za-z-]"])) ∧
    (containsOnly p num = false → containsOnly p allowed = true →
      checkPreIds (l1 ++ p :: l2) = checkPreIds l2) := by
  have hval : Validate ver = some (parseAndRest a b c pre md) := by
    have h2 := Validate_segpass hne hsplit (by rw [hext]; exact hsegs)
    rw [hext] at h2
    exact h2
  refine ⟨?_, ?_, ?_⟩
  · intro h1 h2
    rw [hval]
    have hps : preStage pre = (some VErr.segmentStartsZero,
        ["Illegal leading 0 found in pre-release numeric part \"" ++ String.mk p ++ "\""]) := by
      apply preStage_fail hprene
      rw [hdecomp, checkPreIds_append_pass _ hl1]
      exact checkPreIds_cons_zero _ h1 h2
    unfold parseAndRest
    rw [parseOne_ok hpa, seqv_ok, parseOne_ok hpb, seqv_ok, parseOne_ok hpc, seqv_ok,
      hps, seqv_err]
    rfl
  · intro h1
    rw [hval]
    have hps : preStage pre = (some VErr.invalidCharacters,
        ["Illegal characters found in pre-release non-numeric part \"" ++ String.mk p
          ++ "\". Must be [0-9A-Za-z-]"]) := by
      apply preStage_fail hprene
      rw [hdecomp, checkPreIds_append_pass _ hl1]
      exact checkPreIds_cons_invalid _ h1
    unfold parseAndRest
    rw [parseOne_ok hpa, seqv_ok, parseOne_ok hpb, seqv_ok, parseOne_ok hpc, seqv_ok,
      hps, seqv_err]
    rfl
  · intro h1 h2
    rw [checkPreIds_append_pass _ hl1,
      checkPreIds_cons_pass _ (preIdPass_of_nonnumeric h1 h2)]

/-- Witness for C4: in `1.2.3-x.01` the identifier `x` passes and the
numeric identifier `01` triggers the leading-zero outcome. -/
theorem pre_release_identifier_checks_witness :
    Validate "1.2.3-x.01".data = some (some VErr.segmentStartsZero,
      ["Found major version of 1", "Found minor version of 2", "Found patch version of 3",
       "Illegal leading 0 found in pre-release numeric part \"01\""]) :=
  (pre_release_identifier_checks "1.2.3-x.01".data "1".data "2".data "3-x.01".data
    "3".data "x.01".data [] 1 2 3 ["x".data] "01".data []
    (by decide) (by decide) (by decide) (by decide) (by rfl) (by rfl) (by rfl)
    (by decide) (by decide) (by decide)).1 (by decide) (by decide)

/-- C5: the build-metadata candidate is split off on `+` before the
pre-release candidate is split off on `-` (so metadata is everything right
of the first `+`, and pre-release comes from the piece left of it), and
metadata identifiers are validated purely against the `[0-9A-Za-z-]`
character set — never against the numeric leading-zero rule — so
`1.2.3+build.01` and hyphenated metadata such as `test-01` are valid. -/
theorem metadata_extraction_and_charset (c0 l r : List Char)
    (hplus : splitOnce '+' c0 = some (l, r)) (ids : List (List Char)) :
    (extractSuffixes c0).2.2 = r ∧
    (∀ l2 r2, splitOnce '-' l = some (l2, r2) →
      (extractSuffixes c0).1 = l2 ∧ (extractSuffixes c0).2.1 = r2) ∧
    (checkMetaIds ids = none ↔ ∀ p ∈ ids, containsOnly p allowed = true) ∧
    Validate "1.2.3+build.01".data = some (none,
      ["Found major version of 1", "Found minor version of 2", "Found patch version of 3",
       "Found build metadate on version of \"build.01\"",
       "NOTICE: Build metadata MUST be ignored when determining version precedence. Thus two versions that differ only in the build metadata, have the same precedence."]) ∧
    Validate "1.2.3+test-01".data = some (none,
      ["Found major version of 1", "Found minor version of 2", "Found patch version of 3",
       "Found build metadate on version of \"test-01\"",
       "NOTICE: Build metadata MUST be ignored when determining version precedence. Thus two versions that differ only in the build metadata, have the same precedence."]) := by
  have hmem : '+' ∈ c0 := by
    rw [splitOnce_append hplus]
    simp
  have hany : (c0.any fun ch => ch = '-' || ch = '+') = true := by
    rw [List.any_eq_true]
    exact ⟨'+', hmem, by simp⟩
  refine ⟨?_, ?_, checkMetaIds_none_iff, by decide, by decide⟩
  · rw [extractSuffixes_eval hany hplus]
    rcases h2 : splitOnce '-' l with _ | ⟨l2, r2⟩ <;> rfl
  · intro l2 r2 hminus
    rw [extractSuffixes_eval hany hplus, hminus]
    exact ⟨rfl, rfl⟩

/-- Witness for C5 on the third piece `3-a+b.01`: metadata is the part after
`+`, pre-release the part after `-` of what is left. -/
theorem metadata_extraction_and_charset_witness :
    (extractSuffixes "3-a+b.01".data).2.2 = "b.01".data ∧
    (extractSuffixes "3-a+b.01".data).1 = "3".data ∧
    (extractSuffixes "3-a+b.01".data).2.1 = "a".data :=
  have h := metadata_extraction_and_charset "3-a+b.01".data "3-a".data "b.01".data
    (by decide) []
  ⟨h.1, (h.2.1 "3".data "a".data (by decide)).1, (h.2.1 "3".data "a".data (by decide)).2⟩

/-- C9: empty extracted pre-release and metadata candidates are treated as
absent (their blocks run no checks and append no diagnostics), an empty
dot-separated pre-release identifier passes the character checks vacuously,
and so `1.2.3-`, `1.2.3+` and `1.2.3-a..b` are all classified valid. -/
theorem empty_suffix_components_accepted (rest : List (List Char)) :
    preStage [] = (none, []) ∧ mdStage [] = (none, []) ∧
    containsOnly [] num = true ∧ containsOnly [] allowed = true ∧
    checkPreIds ([] :: rest) = checkPreIds rest ∧
    Validate "1.2.3-".data = some (none,
      ["Found major version of 1", "Found minor version of 2",
       "Found patch version of 3"]) ∧
    Validate "1.2.3+".data = some (none,
      ["Found major version of 1", "Found minor version of 2",
       "Found patch version of 3"]) ∧
    Validate "1.2.3-a..b".data = some (none,
      ["Found major version of 1", "Found minor version of 2", "Found patch version of 3",
       "Version is a pre-release version rather than a stable release version with a pre-release identifier of \"a..b\"",
       "NOTICE: A pre-release version indicates that the version is unstable and might not satisfy the intended compatibility requirements as denoted by its associated normal version."]) := by
  refine ⟨rfl, rfl, rfl, rfl, ?_, by decide, by decide, by decide⟩
  exact checkPreIds_cons_pass rest (by decide)

/-- Witness for C9 with the empty identifier at the head of a singleton
identifier list. -/
theorem empty_suffix_components_accepted_witness :
    checkPreIds [[]] = checkPreIds [] ∧ preStage [] = (none, []) :=
  have h := empty_suffix_components_accepted []
  ⟨h.2.2.2.2.1, h.1⟩

end SemverIsValid

namespace SemverIsValid

/-- C10 counterexample: `00.1.2.3` has four dot-separated pieces and no `+`
or `-`, yet its outcome is leading-zero-segment (the major segment fails its
own check first), not invalid-characters as the claim asserts for all such
inputs. -/
theorem extra_dots_counterexample :
    4 ≤ (goSplit '.' "00.1.2.3".data).length ∧
    ("00.1.2.3".data.any fun ch => ch = '-' || ch = '+') = false ∧
    Validate "00.1.2.3".data = some (some VErr.segmentStartsZero,
      ["Illegal leading 0 found in \"major\" part"]) ∧
    VErr.segmentStartsZero ≠ VErr.invalidCharacters := by
  decide

/-- C10 (amended): an input with four or more dot-separated pieces and no
`+` or `-` is never classified wrong-segment-count; when its major and minor
segments pass their own checks, the dot left inside the third piece fails
the patch digit-only check and the outcome is invalid-characters (an earlier
segment may still fail its own check first); and the wrong-segment-count
outcome only ever arises from a piece count of 1 or 2. -/
theorem extra_dots_never_wrong_count (ver a b c0 : List Char)
    (hsplit : goSplitN '.' 3 ver = [a, b, c0])
    (h4 : 4 ≤ (goSplit '.' ver).length)
    (hnopm : (ver.any fun ch => ch = '-' || ch = '+') = false) :
    (∀ e msgs, Validate ver = some (e, msgs) → e ≠ some VErr.invalidNumberParts) ∧
    (containsOnly a num = true → ¬(1 < a.length ∧ a.headD ' ' = '0') →
      containsOnly b num = true → ¬(1 < b.length ∧ b.headD ' ' = '0') →
      Validate ver = some (some VErr.invalidCharacters,
        ["Illegal non-numeric characters found in \"patch\" part"])) ∧
    (∀ w : List Char, ∀ msgs : List String,
      Validate w = some (some VErr.invalidNumberParts, msgs) →
      (goSplitN '.' 3 w).length = 1 ∨ (goSplitN '.' 3 w).length = 2) := by
  have hne : ver ≠ [] := by
    intro hv
    subst hv
    simp [goSplit] at h4
  obtain ⟨r, hx, hy⟩ := goSplitN3_eq_three hsplit
  have hver : ver = a ++ '.' :: r := splitOnce_append hx
  have hr : r = b ++ '.' :: c0 := splitOnce_append hy
  have hc0nopm : (c0.any fun ch => ch = '-' || ch = '+') = false := by
    rw [hver, hr] at hnopm
    exact any_false_cons_tail (any_false_append_right
      (any_false_cons_tail (any_false_append_right hnopm)))
  have hdot : splitOnce '.' c0 ≠ none := by
    intro hs0
    have hg : goSplit '.' ver = a :: b :: goSplit '.' c0 := goSplit_of_goSplitN3 hsplit
    rw [goSplit_eq_of_splitOnce_none hs0] at hg
    rw [hg] at h4
    simp at h4
  obtain ⟨⟨l0, r0⟩, hs0⟩ := Option.ne_none_iff_exists.mp hdot
  have hc0 : c0 = l0 ++ '.' :: r0 := splitOnce_append hs0.symm
  have hcoc : containsOnly c0 num = false := by
    rcases hco : containsOnly c0 num
    · rfl
    · exfalso
      unfold containsOnly at hco
      rw [List.all_eq_true] at hco
      have hdotmem : '.' ∈ c0 := by rw [hc0]; simp
      exact absurd (hco '.' hdotmem) (by decide)
  have hextr : extractSuffixes c0 = (c0, [], []) := extractSuffixes_no_suffix hc0nopm
  refine ⟨?_, ?_, ?_⟩
  · intro e msgs hveq heq
    subst heq
    rcases Validate_cases ver with ⟨hv, _⟩ | ⟨_, hlen, _⟩ |
        ⟨a2, b2, c02, e2, m2, _, _, hcs, he⟩ | ⟨a2, b2, c02, _, _, hcs, he⟩
    · exact hne hv
    · exact hlen (by rw [hsplit]; rfl)
    · rw [he] at hveq
      injection hveq with h1
      injection h1 with h1 _
      obtain rfl := Option.some.inj h1
      rcases checkSegs_err_inv hcs with h2 | h2 <;> cases h2
    · rw [he] at hveq
      injection hveq with h1
      rcases parseAndRest_err_inv h1 with h2 | h2 | h2 | h2 <;> cases h2
  · intro h1 h2 h3 h4b
    apply Validate_segfail hne hsplit
    rw [hextr, checkSegs_cons_pass _ h1 h2, checkSegs_cons_pass _ h3 h4b]
    exact checkSegs_cons_invalid _ (show numToName 2 = some "patch" from rfl) hcoc
  · intro w msgs hw
    rcases goSplitN3_length '.' w with hl | hl | hl
    · exact Or.inl hl
    · exact Or.inr hl
    · exfalso
      rcases Validate_cases w with ⟨hv, he⟩ | ⟨_, hlen, _⟩ |
          ⟨a2, b2, c02, e2, m2, _, _, hcs, he⟩ | ⟨a2, b2, c02, _, _, hcs, he⟩
      · rw [he] at hw
        injection hw with h1
        injection h1 with h1 _
        cases Option.some.inj h1
      · exact hlen hl
      · rw [he] at hw
        injection hw with h1
        injection h1 with h1 _
        obtain rfl := Option.some.inj h1
        rcases checkSegs_err_inv hcs with h2 | h2 <;> cases h2
      · rw [he] at hw
        injection hw with h1
        rcases parseAndRest_err_inv h1 with h2 | h2 | h2 | h2 <;> cases h2

/-- Witness for the amended C10 at `1.2.3.4`: four pieces, outcome
invalid-characters naming patch. -/
theorem extra_dots_never_wrong_count_witness :
    Validate "1.2.3.4".data = some (some VErr.invalidCharacters,
      ["Illegal non-numeric characters found in \"patch\" part"]) :=
  (extra_dots_never_wrong_count "1.2.3.4".data "1".data "2".data "3.4".data
    (by decide) (by decide) (by decide)).2.1 (by decide) (by decide) (by decide) (by decide)

end SemverIsValid
